import Mathlib

/-!
Shallow embedding of `src/sqlite_to_jsonl.py` and verification of its spec.

The Python script is modelled function by function:
* `is_sqlite3`            — format validator (file-ness, size, magic header);
* `to_string`             — value normalizer (`str(data).lstrip("b").strip("'")`
                            on bytes, identity otherwise), on top of a model of
                            Python's `bytes.__repr__`;
* `write_dicts_to_jsonl`  — JSONL writer with truncate-on-open semantics;
* `process_table`         — per-table exporter (zip column names with row values);
* `get_tables`            — catalog query `SELECT name FROM sqlite_master WHERE
                            type='table'`;
* `apply_wal`             — WAL folding with backup / restore, modelled as a
                            filesystem transformer that also emits an event trace;
* `process_file`          — the single-file driver's exception path.

Filesystems are association lists from path to content; engine effects
(checkpoint, vacuum) are abstract content transformers passed as parameters.
-/

namespace SqliteToJsonl

/-! ## Characters used symbolically (quote, double quote, backslash, newline) -/

def quoteC : Char := Char.ofNat 39

def dquoteC : Char := Char.ofNat 34

def backslashC : Char := Char.ofNat 92

def newlineC : Char := Char.ofNat 10

/-! ## Format validator: `is_sqlite3` (src lines 7-31)

A candidate input is abstracted by whether the path names a regular file and by
its byte content (`os.path.getsize` = length of the content). -/

/-- The 16 magic bytes `SQLite format 3\x00` compared on src line 27. -/
def sqliteMagic : List Nat :=
  [83, 81, 76, 105, 116, 101, 32, 102, 111, 114, 109, 97, 116, 32, 51, 0]

/-- Model of `is_sqlite3`: not a regular file → `False`; size < 100 → `False`;
otherwise compare the first 16 bytes with the magic signature. -/
def is_sqlite3 (isFile : Bool) (content : List Nat) : Bool :=
  if !isFile then false
  else if content.length < 100 then false
  else content.take 16 == sqliteMagic

/-! ## Value model

SQLite column values reaching Python are `str`, `int`, `float`, `None` or
`bytes`.  Floats are modelled by rationals: only pass-through behaviour (never
arithmetic) is at stake. -/

inductive Value where
  | text (s : String)
  | int (n : Int)
  | real (q : Rat)
  | null
  | blob (bs : List Nat)
  deriving DecidableEq, Repr

def Value.isBlob : Value → Bool
  | .blob _ => true
  | _ => false

/-! ## Python `bytes.__repr__`

`repr(b)` is `b` followed by a quoted body.  The quote is a single quote unless
the bytes contain `0x27` and no `0x22`, in which case it is a double quote.
Inside the body: backslash and the quote character are backslash-escaped, tab /
newline / carriage return use short escapes, other printable ASCII is literal,
and everything else is `\xHH` with lowercase hex digits. -/

/-- Lowercase hexadecimal digit: `0`-`9` then `a`-`f`. -/
def hexDigit (n : Nat) : Char :=
  if n < 10 then Char.ofNat (48 + n) else Char.ofNat (87 + n)

def pyQuote (bs : List Nat) : Char :=
  if bs.contains 39 && !(bs.contains 34) then dquoteC else quoteC

def pyEscByte (q : Char) (b : Nat) : List Char :=
  if b = 92 then [backslashC, backslashC]
  else if q = quoteC ∧ b = 39 then [backslashC, quoteC]
  else if q = dquoteC ∧ b = 34 then [backslashC, dquoteC]
  else if b = 9 then [backslashC, 't']
  else if b = 10 then [backslashC, 'n']
  else if b = 13 then [backslashC, 'r']
  else if 32 ≤ b ∧ b ≤ 126 then [Char.ofNat b]
  else [backslashC, 'x', hexDigit (b / 16), hexDigit (b % 16)]

/-- The body of `repr(data)` between the quotes. -/
def pyReprBody (bs : List Nat) : List Char :=
  bs.flatMap (pyEscByte (pyQuote bs))

/-- `str(data)` for `data : bytes`: prefix `b`, quote, escaped body, quote. -/
def pyBytesRepr (bs : List Nat) : List Char :=
  'b' :: pyQuote bs :: (pyReprBody bs ++ [pyQuote bs])

/-! ## Python `str.lstrip` / `str.strip` with a character set -/

def pyLstrip (cs : List Char) (set : List Char) : List Char :=
  cs.dropWhile (fun c => set.contains c)

def pyRstrip (cs : List Char) (set : List Char) : List Char :=
  (cs.reverse.dropWhile (fun c => set.contains c)).reverse

def pyStrip (cs : List Char) (set : List Char) : List Char :=
  pyRstrip (pyLstrip cs set) set

/-! ## Value normalizer: `to_string` (src lines 53-62) -/

/-- `str(data).lstrip("b").strip("'")` (src line 60). -/
def to_string_bytes (bs : List Nat) : String :=
  String.mk (pyStrip (pyLstrip (pyBytesRepr bs) ['b']) [quoteC])

/-- Model of `to_string`: bytes become their stripped repr, all else passes
through unchanged. -/
def to_string : Value → Value
  | .blob bs => .text (to_string_bytes bs)
  | v => v

/-- What the spec's words describe: the debug representation with the `b` prefix
and the two surrounding quote characters removed (nothing more). -/
def specStrippedRepr (bs : List Nat) : String :=
  String.mk (((pyBytesRepr bs).drop 2).dropLast)

/-! ## Association-list filesystems

`alWrite` overwrites any previous binding; `alRemove` is `os.remove`. -/

def alLookup {α : Type} : List (String × α) → String → Option α
  | [], _ => none
  | e :: t, p => if e.1 = p then some e.2 else alLookup t p

def alWrite {α : Type} (l : List (String × α)) (p : String) (v : α) : List (String × α) :=
  (p, v) :: l.filter (fun e => decide (e.1 ≠ p))

def alRemove {α : Type} (l : List (String × α)) (p : String) : List (String × α) :=
  l.filter (fun e => decide (e.1 ≠ p))

/-! ## JSON serialization (`json.dumps` with its defaults)

`ensure_ascii` is on: characters outside `0x20`-`0x7e` are `\uXXXX`-escaped
(with a surrogate pair above `0xFFFF`); `", "` and `": "` are the separators.
Float formatting is abstracted through `Rat`'s textual form — no claim depends
on it.  `bytes` values make `json.dumps` raise `TypeError`; that is modelled by
`jsonSerializable` and handled in `writeContent`. -/

def hex4 (n : Nat) : List Char :=
  [hexDigit (n / 4096 % 16), hexDigit (n / 256 % 16), hexDigit (n / 16 % 16), hexDigit (n % 16)]

def jsonEscapeChar (c : Char) : List Char :=
  let n := c.toNat
  if c = dquoteC then [backslashC, dquoteC]
  else if c = backslashC then [backslashC, backslashC]
  else if n = 8 then [backslashC, 'b']
  else if n = 9 then [backslashC, 't']
  else if n = 10 then [backslashC, 'n']
  else if n = 12 then [backslashC, 'f']
  else if n = 13 then [backslashC, 'r']
  else if 32 ≤ n ∧ n ≤ 126 then [c]
  else if n < 65536 then backslashC :: 'u' :: hex4 n
  else
    (backslashC :: 'u' :: hex4 (55296 + (n - 65536) / 1024)) ++
      (backslashC :: 'u' :: hex4 (56320 + (n - 65536) % 1024))

def jsonStringLit (s : String) : String :=
  String.mk (dquoteC :: (s.toList.flatMap jsonEscapeChar) ++ [dquoteC])

def jsonSerializable (v : Value) : Bool :=
  !v.isBlob

def jsonValueStr : Value → String
  | .text s => jsonStringLit s
  | .int n => toString n
  | .real q => toString q
  | .null => "null"
  | .blob _ => ""

/-- One dictionary is a `Record`: column name to normalized value, in insertion
(= column) order. -/
abbrev Record := List (String × Value)

def jsonDumps (r : Record) : String :=
  "\x7b" ++ String.intercalate (", ") (r.map (fun kv => jsonStringLit kv.1 ++ (": ") ++ jsonValueStr kv.2)) ++ "\x7d"

def newlineStr : String := String.mk [newlineC]

/-- Content the writer loop of src lines 46-48 leaves in the file: one dumped
line per entry until the first entry `json.dumps` rejects — the exception then
aborts the loop (caught on src line 50) with the earlier lines already
written. -/
def writeContent : List Record → String
  | [] => ""
  | r :: t =>
    if r.all (fun kv => jsonSerializable kv.2) then jsonDumps r ++ newlineStr ++ writeContent t
    else ""

/-- Number of lines of a text file (each written record ends with a newline). -/
def lineCount (s : String) : Nat :=
  s.toList.count newlineC

/-! ## The exporter-side disk: files plus created directories -/

structure Disk where
  files : List (String × String)
  dirs : List String
  deriving DecidableEq, Repr

/-- `os.sep.join(output_file.split(os.sep)[:-1])` (src line 42). -/
def dirOf (p : String) : String :=
  String.intercalate ("/") ((p.splitOn ("/")).dropLast)

/-- `os.makedirs(folder_path, exist_ok=True)` (src lines 174-185). -/
def create_folder_if_not_exists (d : Disk) (folder_path : String) : Disk :=
  if d.dirs.contains folder_path then d else ⟨d.files, folder_path :: d.dirs⟩

/-- Model of `write_dicts_to_jsonl` (src lines 33-51): derive the parent folder,
create it, open `output_file` with mode `w+` (truncating) and write
`writeContent`. -/
def write_dicts_to_jsonl (d : Disk) (dict_list : List Record) (output_file : String) : Disk :=
  ⟨alWrite (create_folder_if_not_exists d (dirOf output_file)).files output_file
      (writeContent dict_list),
    (create_folder_if_not_exists d (dirOf output_file)).dirs⟩

/-! ## `os.path.join` (posix) and the exporter -/

def startsWithSep (s : String) : Bool :=
  s.toList.head? == some '/'

def endsWithSep (s : String) : Bool :=
  s.toList.getLast? == some '/'

/-- posixpath `join` for two components: an absolute second component discards
the first; otherwise a separator is inserted unless the first is empty or ends
with one. -/
def osPathJoin (a b : String) : String :=
  if startsWithSep b then b
  else if a = "" || endsWithSep a then a ++ b
  else a ++ ("/") ++ b

/-- The dictionary built on src line 87: zip column names with the row
positionally, normalizing each value. -/
def row_dict (column_names : List String) (row : List Value) : Record :=
  (column_names.zip row).map (fun kv => (kv.1, to_string kv.2))

/-- Model of `process_table` (src lines 64-90).  The cursor is abstracted by the
column names `PRAGMA table_info` returns and the rows of the full-table scan. -/
def process_table (d : Disk) (output_dir table_name : String)
    (column_names : List String) (rows : List (List Value)) : Disk :=
  write_dicts_to_jsonl d (rows.map (row_dict column_names))
    (osPathJoin output_dir table_name ++ (".jsonl"))

/-- The full output path of one table of one input file: `process_file` first
joins `output_dir` with `input_filename` (src line 136), `process_table` then
joins the table name and appends `.jsonl` (src line 82). -/
def outputFileFor (output_dir input_filename table_name : String) : String :=
  osPathJoin (osPathJoin output_dir input_filename) table_name ++ (".jsonl")

/-! ## Table enumerator: `get_tables` (src lines 92-99)

A catalog row of `sqlite_master` carries an object type and a name; `isSystem`
marks engine-internal objects (`sqlite_sequence`, `sqlite_stat1`, ...), which
the engine lists with type `table` and which the `WHERE type='table'` clause
cannot see. -/

structure CatalogEntry where
  type : String
  name : String
  isSystem : Bool
  deriving DecidableEq, Repr

/-- `SELECT name FROM sqlite_master WHERE type='table';` in catalog order. -/
def get_tables (catalog : List CatalogEntry) : List String :=
  (catalog.filter (fun e => e.type == ("table"))).map CatalogEntry.name

/-- Modelled from the spec's words: the user tables only — entries of type
`table` that are not engine-internal. -/
def userTablesSpec (catalog : List CatalogEntry) : List String :=
  (catalog.filter (fun e => e.type == ("table") && !e.isSystem)).map CatalogEntry.name

/-! ## WAL folding: `apply_wal` (src lines 101-124)

The engine's checkpoint and compaction are abstract byte transformers `ckpt`
and `vac`; `fail` injects where the `try` body of src lines 116-123 raises.
The result pairs the final filesystem with the trace of observable events. -/

inductive WalEvent where
  | infoNoWal
  | backupMade
  | checkpointIssued
  | vacuumIssued
  | backupRemoved
  | exceptionLogged
  deriving DecidableEq, Repr

inductive WalFail where
  | atCheckpoint
  | atVacuum
  | success
  deriving DecidableEq, Repr

abbrev DiskB := List (String × List Nat)

def apply_wal (ckpt vac : List Nat → List Nat) (fail : WalFail)
    (fs : DiskB) (input_filename : String) : DiskB × List WalEvent :=
  let walName := input_filename ++ ("-wal")
  let pre : List WalEvent := if (alLookup fs walName).isSome then [] else [.infoNoWal]
  let orig := (alLookup fs input_filename).getD []
  let backup_path := input_filename ++ (".backup")
  let fs1 := alWrite fs backup_path orig
  match fail with
  | .atCheckpoint =>
    (alRemove (alWrite fs1 input_filename orig) backup_path,
      pre ++ [.backupMade, .checkpointIssued, .exceptionLogged])
  | .atVacuum =>
    let fs2 := alWrite fs1 input_filename (ckpt orig)
    (alRemove (alWrite fs2 input_filename orig) backup_path,
      pre ++ [.backupMade, .checkpointIssued, .vacuumIssued, .exceptionLogged])
  | .success =>
    let fs2 := alWrite fs1 input_filename (vac (ckpt orig))
    (alRemove fs2 backup_path,
      pre ++ [.backupMade, .checkpointIssued, .vacuumIssued, .backupRemoved])

/-! ## The error path of `process_file` (src lines 126-158)

`conn` and `cursor` start as the string `""` (src lines 130-131).  The handler
of src lines 155-158 prints the exception, then runs `cursor.close()` and
`conn.close()` with no surrounding `try`: when the connection was never opened
those calls hit the string placeholder and raise `AttributeError`; when a real
`close` raises, that error is equally unguarded.  Either way the secondary
error propagates to the caller. -/

inductive PyError where
  | attributeError
  | dbError
  deriving DecidableEq, Repr

inductive Outcome where
  | ok
  | raised (e : PyError)
  deriving DecidableEq, Repr

structure RunCfg where
  connectFails : Bool
  bodyFails : Bool
  closeFails : Bool
  deriving DecidableEq, Repr

structure RunResult where
  outcome : Outcome
  loggedException : Bool
  releaseAttempted : Bool
  deriving DecidableEq, Repr

/-- What `cursor.close(); conn.close()` does inside the handler. -/
def close_release (connOpened closeFails : Bool) : Outcome :=
  if !connOpened then .raised .attributeError
  else if closeFails then .raised .dbError
  else .ok

def process_file_err (cfg : RunCfg) : RunResult :=
  if cfg.connectFails then ⟨close_release false cfg.closeFails, true, true⟩
  else if cfg.bodyFails then ⟨close_release true cfg.closeFails, true, true⟩
  else ⟨.ok, false, false⟩

/-! # Theorems

First a small library about the association-list filesystem, then one theorem
per claim. -/

theorem alLookup_alWrite_self {α : Type} (l : List (String × α)) (p : String) (v : α) :
    alLookup (alWrite l p v) p = some v := by
  simp [alWrite, alLookup]

theorem alLookup_filter_ne {α : Type} (l : List (String × α)) (p q : String) (h : q ≠ p) :
    alLookup (l.filter (fun e => decide (e.1 ≠ p))) q = alLookup l q := by
  induction l with
  | nil => rfl
  | cons e t ih =>
    rw [List.filter_cons]
    by_cases he : e.1 = p
    · rw [if_neg (by simp [he]), ih, alLookup,
        if_neg (fun hc => h (by rw [← hc, he]))]
    · rw [if_pos (by simp [he])]
      by_cases hq : e.1 = q
      · rw [alLookup, alLookup, if_pos hq, if_pos hq]
      · rw [alLookup, alLookup, if_neg hq, if_neg hq, ih]

theorem alLookup_alWrite_ne {α : Type} (l : List (String × α)) (p q : String) (v : α)
    (h : q ≠ p) : alLookup (alWrite l p v) q = alLookup l q := by
  rw [alWrite, alLookup, if_neg (fun hc => h hc.symm)]
  exact alLookup_filter_ne l p q h

theorem alLookup_alRemove_self {α : Type} (l : List (String × α)) (p : String) :
    alLookup (alRemove l p) p = none := by
  induction l with
  | nil => rfl
  | cons e t ih =>
    rw [alRemove, List.filter_cons]
    by_cases he : e.1 = p
    · rw [if_neg (by simp [he])]
      exact ih
    · rw [if_pos (by simp [he]), alLookup, if_neg he]
      exact ih

theorem alLookup_alRemove_ne {α : Type} (l : List (String × α)) (p q : String)
    (h : q ≠ p) : alLookup (alRemove l p) q = alLookup l q :=
  alLookup_filter_ne l p q h

theorem append_ne_empty_right (a b : String) (hb : b ≠ "") : a ++ b ≠ "" := by
  intro h
  apply hb
  have hd := congrArg String.data h
  rw [String.data_append] at hd
  rcases List.append_eq_nil.mp hd with ⟨-, h2⟩
  cases b with
  | mk bd =>
    have : bd = [] := h2
    rw [this]

theorem append_ne_self (s t : String) (ht : t ≠ "") : s ++ t ≠ s := by
  intro h
  apply ht
  have hd := congrArg String.data h
  rw [String.data_append] at hd
  have hlen := congrArg List.length hd
  rw [List.length_append] at hlen
  have hz : t.data.length = 0 := by omega
  cases t with
  | mk td =>
    have : td = [] := List.length_eq_zero.mp hz
    rw [this]

/-- C1: `is_sqlite3` answers positively exactly when the path names a regular
file of at least 100 bytes whose first 16 bytes are the magic signature
`SQLite format 3\x00`, and negatively whenever any of the three rules fails. -/
theorem is_sqlite3_spec (isFile : Bool) (content : List Nat) :
    is_sqlite3 isFile content = true ↔
      isFile = true ∧ 100 ≤ content.length ∧ content.take 16 = sqliteMagic := by
  cases isFile with
  | false => simp [is_sqlite3]
  | true =>
    unfold is_sqlite3
    rw [if_neg (by simp)]
    by_cases h : content.length < 100
    · rw [if_pos h]
      constructor
      · intro hc
        exact absurd hc (by simp)
      · rintro ⟨-, h100, -⟩
        omega
    · rw [if_neg h]
      simp [beq_iff_eq, Nat.not_lt.mp h]

/-- C6: when every value of a row is text, integer, real or null (no bytes),
the record built for the row is the plain positional zip of column names with
the raw values — the normalizer passes each value through unchanged. -/
theorem row_dict_passthrough (column_names : List String) (row : List Value)
    (h : ∀ v ∈ row, v.isBlob = false) :
    row_dict column_names row = column_names.zip row := by
  unfold row_dict
  have hcongr : ∀ kv ∈ column_names.zip row,
      (fun kv : String × Value => (kv.1, to_string kv.2)) kv = id kv := by
    intro kv hkv
    have hv : kv.2.isBlob = false := h kv.2 (List.of_mem_zip (a := kv.1) (b := kv.2) (by simpa using hkv)).2
    have : to_string kv.2 = kv.2 := by
      cases hk : kv.2 <;> simp_all [to_string, Value.isBlob]
    simp [this]
  rw [List.map_congr_left hcongr, List.map_id]

/-- Closed instance of `row_dict_passthrough` on a concrete one-column row. -/
theorem row_dict_passthrough_witness :
    row_dict [("a")] [Value.int 3] = List.zip [("a")] [Value.int 3] :=
  row_dict_passthrough [("a")] [Value.int 3] (by decide)

theorem create_folder_dirs_contains (d : Disk) (f : String) :
    (create_folder_if_not_exists d f).dirs.contains f = true := by
  unfold create_folder_if_not_exists
  by_cases h : d.dirs.contains f = true
  · rw [if_pos h]
    exact h
  · rw [if_neg h]
    simp

theorem create_folder_of_contains (d : Disk) (f : String)
    (h : d.dirs.contains f = true) : create_folder_if_not_exists d f = d := by
  unfold create_folder_if_not_exists
  rw [if_pos h]

theorem filter_key_ne_idem {α : Type} (l : List (String × α)) (p : String) :
    (l.filter (fun e => decide (e.1 ≠ p))).filter (fun e => decide (e.1 ≠ p)) =
      l.filter (fun e => decide (e.1 ≠ p)) := by
  rw [List.filter_filter]
  exact List.filter_congr (fun a _ => by simp)

theorem alWrite_alWrite {α : Type} (l : List (String × α)) (p : String) (v : α) :
    alWrite (alWrite l p v) p v = alWrite l p v := by
  unfold alWrite
  rw [List.filter_cons, if_neg (by simp), filter_key_ne_idem]

theorem write_dicts_idem (d : Disk) (rl : List Record) (p : String) :
    write_dicts_to_jsonl (write_dicts_to_jsonl d rl p) rl p =
      write_dicts_to_jsonl d rl p := by
  unfold write_dicts_to_jsonl
  rw [create_folder_of_contains
      ⟨alWrite (create_folder_if_not_exists d (dirOf p)).files p (writeContent rl),
        (create_folder_if_not_exists d (dirOf p)).dirs⟩ (dirOf p)
      (create_folder_dirs_contains d (dirOf p)),
    alWrite_alWrite]

/-- C5: running the table exporter twice in succession on the same table and
rows leaves exactly the disk state of a single run, and after any run the
output file's content is the rendered JSONL of the rows regardless of what the
file held before — writing truncates and replaces, never appends. -/
theorem process_table_idempotent (d : Disk) (output_dir table_name : String)
    (column_names : List String) (rows : List (List Value)) :
    process_table (process_table d output_dir table_name column_names rows)
        output_dir table_name column_names rows =
      process_table d output_dir table_name column_names rows ∧
    alLookup (process_table d output_dir table_name column_names rows).files
        (osPathJoin output_dir table_name ++ (".jsonl")) =
      some (writeContent (rows.map (row_dict column_names))) := by
  refine ⟨?_, ?_⟩
  · unfold process_table
    exact write_dicts_idem d _ _
  · unfold process_table write_dicts_to_jsonl
    exact alLookup_alWrite_self _ _ _

theorem osPathJoin_eq (a b : String) (hb : startsWithSep b = false) (ha : a ≠ "")
    (ha2 : endsWithSep a = false) : osPathJoin a b = a ++ ("/") ++ b := by
  unfold osPathJoin
  rw [if_neg (by simp [hb]), if_neg (by simp [ha, ha2])]

/-- C10: exporting a table whose full scan returned zero rows still creates the
output file `<output_dir>/<table_name>.jsonl`, creates its parent folder, and
the created file contains zero lines. -/
theorem process_table_empty_creates_file (d : Disk) (output_dir table_name : String)
    (column_names : List String)
    (h1 : startsWithSep table_name = false) (h2 : output_dir ≠ "")
    (h3 : endsWithSep output_dir = false) :
    alLookup (process_table d output_dir table_name column_names []).files
        (output_dir ++ ("/") ++ table_name ++ (".jsonl")) = some ("") ∧
    lineCount ("") = 0 ∧
    (process_table d output_dir table_name column_names []).dirs.contains
        (dirOf (output_dir ++ ("/") ++ table_name ++ (".jsonl"))) = true := by
  have hpath : osPathJoin output_dir table_name ++ (".jsonl") =
      output_dir ++ ("/") ++ table_name ++ (".jsonl") := by
    rw [osPathJoin_eq _ _ h1 h2 h3]
  rw [← hpath]
  refine ⟨?_, by rfl, ?_⟩
  · unfold process_table write_dicts_to_jsonl
    simpa using alLookup_alWrite_self
      (create_folder_if_not_exists d
        (dirOf (osPathJoin output_dir table_name ++ (".jsonl")))).files
      (osPathJoin output_dir table_name ++ (".jsonl")) (writeContent [])
  · unfold process_table write_dicts_to_jsonl
    simpa using create_folder_dirs_contains d
      (dirOf (osPathJoin output_dir table_name ++ (".jsonl")))

/-- Closed instance of `process_table_empty_creates_file` on a concrete empty
table. -/
theorem process_table_empty_creates_file_witness :
    alLookup (process_table ⟨[], []⟩ ("out") ("t") [("c")] []).files
        (("out") ++ ("/") ++ ("t") ++ (".jsonl")) = some ("") :=
  (process_table_empty_creates_file ⟨[], []⟩ ("out") ("t") [("c")]
    (by decide) (by decide) (by decide)).1

/-- C4 counterexample: a catalog holding the engine-internal `sqlite_sequence`
entry, which SQLite lists with type `table`: `get_tables` returns it although
it is a system table, while the spec's user-table reading excludes it. -/
theorem get_tables_system_counterexample :
    get_tables [⟨("table"), ("sqlite_sequence"), true⟩] = [("sqlite_sequence")] ∧
    userTablesSpec [⟨("table"), ("sqlite_sequence"), true⟩] = [] ∧
    (⟨("table"), ("sqlite_sequence"), true⟩ : CatalogEntry).isSystem = true := by
  decide

/-- C4 (amended): `get_tables` returns, in catalog order, the names of exactly
the catalog entries whose type is `table` — views and indexes are excluded,
but engine-internal tables of type `table` (such as `sqlite_sequence`) are
included — and it is empty exactly when no entry has type `table`. -/
theorem get_tables_amended (catalog : List CatalogEntry) :
    (∀ n, n ∈ get_tables catalog ↔ ∃ e ∈ catalog, e.type = ("table") ∧ e.name = n) ∧
    (get_tables catalog).Sublist (catalog.map CatalogEntry.name) ∧
    (get_tables catalog = [] ↔ ∀ e ∈ catalog, e.type ≠ ("table")) := by
  refine ⟨?_, ?_, ?_⟩
  · intro n
    simp only [get_tables, List.mem_map, List.mem_filter, beq_iff_eq]
    constructor
    · rintro ⟨e, ⟨he, ht⟩, hn⟩
      exact ⟨e, he, ht, hn⟩
    · rintro ⟨e, he, ht, hn⟩
      exact ⟨e, ⟨he, ht⟩, hn⟩
  · exact List.Sublist.map _ (List.filter_sublist catalog)
  · rw [get_tables, List.map_eq_nil_iff, List.filter_eq_nil_iff]
    simp

/-- Closed instance of `get_tables_amended`: a declared table is returned. -/
theorem get_tables_amended_witness :
    ("t1") ∈ get_tables [⟨("table"), ("t1"), false⟩, ⟨("view"), ("v1"), false⟩] :=
  ((get_tables_amended [⟨("table"), ("t1"), false⟩, ⟨("view"), ("v1"), false⟩]).1
    ("t1")).mpr ⟨⟨("table"), ("t1"), false⟩, by decide, rfl, rfl⟩

theorem toList_append (a b : String) : (a ++ b).toList = a.toList ++ b.toList :=
  String.data_append a b

theorem toList_ne_nil (b : String) (hb : b ≠ "") : b.toList ≠ [] := by
  intro h
  apply hb
  cases b with
  | mk bd =>
    rw [show (String.mk bd).toList = bd from rfl] at h
    rw [h]

theorem endsWithSep_append (a b : String) (hb : b ≠ "") :
    endsWithSep (a ++ b) = endsWithSep b := by
  unfold endsWithSep
  rw [toList_append, List.getLast?_append_of_ne_nil _ (toList_ne_nil b hb)]

/-- C8 counterexample: with output directory `out` and the absolute input path
`/db`, `os.path.join` discards the output directory: the table file lands at
`/db/t.jsonl`, which is not `out//db/t.jsonl` and is not nested under `out`. -/
theorem output_path_absolute_counterexample :
    outputFileFor ("out") ("/db") ("t") = ("/db/t.jsonl") ∧
    outputFileFor ("out") ("/db") ("t") ≠
      ("out") ++ ("/") ++ ("/db") ++ ("/") ++ ("t") ++ (".jsonl") := by
  decide

/-- C8 (amended): for a relative input path — and a table name not starting
with the separator, a nonempty output directory not ending with it — the
computed output path is exactly
`{output_dir}/{input_file_path}/{table_name}.jsonl`, and exporting the table
(with the per-file output directory `os.path.join(output_dir, input_filename)`
exactly as `process_file` passes it) writes the table file at that path.  For
an absolute input path `os.path.join` drops the output directory, so the
computed location is `{input_file_path}/{table_name}.jsonl` and the
nesting-under-the-output-directory invariant fails. -/
theorem output_path_amended (output_dir input_filename table_name : String)
    (d : Disk) (column_names : List String) (rows : List (List Value))
    (h1 : startsWithSep input_filename = false)
    (h2 : startsWithSep table_name = false)
    (h3 : output_dir ≠ "") (h4 : endsWithSep output_dir = false)
    (h5 : input_filename ≠ "") (h6 : endsWithSep input_filename = false) :
    outputFileFor output_dir input_filename table_name =
      output_dir ++ ("/") ++ input_filename ++ ("/") ++ table_name ++ (".jsonl") ∧
    alLookup (process_table d (osPathJoin output_dir input_filename) table_name
        column_names rows).files
      (output_dir ++ ("/") ++ input_filename ++ ("/") ++ table_name ++ (".jsonl")) =
      some (writeContent (rows.map (row_dict column_names))) := by
  have hpath : outputFileFor output_dir input_filename table_name =
      output_dir ++ ("/") ++ input_filename ++ ("/") ++ table_name ++ (".jsonl") := by
    unfold outputFileFor
    rw [osPathJoin_eq _ _ h1 h3 h4]
    rw [osPathJoin_eq _ _ h2 (append_ne_empty_right _ _ h5) ?he]
    case he =>
      rw [endsWithSep_append _ _ h5]
      exact h6
  refine ⟨hpath, ?_⟩
  rw [← hpath]
  unfold outputFileFor process_table write_dicts_to_jsonl
  exact alLookup_alWrite_self _ _ _

/-- Closed instance of `output_path_amended` on relative components: one table
of one input file is written at the nested path. -/
theorem output_path_amended_witness :
    outputFileFor ("out") ("db") ("t") =
      ("out") ++ ("/") ++ ("db") ++ ("/") ++ ("t") ++ (".jsonl") ∧
    alLookup (process_table ⟨[], []⟩ (osPathJoin ("out") ("db")) ("t")
        [("c")] []).files
      (("out") ++ ("/") ++ ("db") ++ ("/") ++ ("t") ++ (".jsonl")) =
      some (writeContent []) :=
  output_path_amended ("out") ("db") ("t") ⟨[], []⟩ [("c")] [] (by decide)
    (by decide) (by decide) (by decide) (by decide) (by decide)

/-- C9 counterexample: when opening the connection itself fails, the handler's
release attempt hits the string placeholders `conn = ""`, `cursor = ""` and
raises `AttributeError`, which propagates to the caller instead of being
suppressed. -/
theorem process_file_secondary_error_counterexample :
    (process_file_err ⟨true, false, false⟩).outcome =
      Outcome.raised PyError.attributeError ∧
    (process_file_err ⟨true, false, false⟩).outcome ≠ Outcome.ok := by
  decide

/-- C9 (amended): on any exception during the body the driver logs it and
attempts the release, but the release is unguarded: when the connection was
never opened the attempt raises `AttributeError`, a failing `close` of a real
connection propagates its error, and only a successful release of a real
connection propagates nothing. -/
theorem process_file_error_amended (cfg : RunCfg) :
    ((cfg.connectFails = true ∨ cfg.bodyFails = true) →
      (process_file_err cfg).loggedException = true ∧
        (process_file_err cfg).releaseAttempted = true) ∧
    (cfg.connectFails = true →
      (process_file_err cfg).outcome = Outcome.raised PyError.attributeError) ∧
    (cfg.connectFails = false → cfg.bodyFails = true → cfg.closeFails = true →
      (process_file_err cfg).outcome = Outcome.raised PyError.dbError) ∧
    (cfg.connectFails = false → cfg.bodyFails = true → cfg.closeFails = false →
      (process_file_err cfg).outcome = Outcome.ok) := by
  rcases cfg with ⟨c, b, cl⟩
  cases c <;> cases b <;> cases cl <;> decide

/-- Closed instances of `process_file_error_amended` for a body failure with a
failing and a succeeding release. -/
theorem process_file_error_amended_witness :
    (process_file_err ⟨false, true, true⟩).outcome = Outcome.raised PyError.dbError ∧
    (process_file_err ⟨false, true, false⟩).outcome = Outcome.ok :=
  ⟨(process_file_error_amended ⟨false, true, true⟩).2.2.1 rfl rfl rfl,
    (process_file_error_amended ⟨false, true, false⟩).2.2.2 rfl rfl rfl⟩

/-- C2 counterexample: on a database with no sibling WAL file, `apply_wal`
still issues the checkpoint and the compaction — the `if` on the WAL's
existence only prints a message and falls through. -/
theorem apply_wal_no_wal_counterexample :
    alLookup ([(("db"), [7])] : DiskB) (("db") ++ ("-wal")) = none ∧
    WalEvent.checkpointIssued ∈
      (apply_wal id id WalFail.success [(("db"), [7])] ("db")).2 ∧
    WalEvent.vacuumIssued ∈
      (apply_wal id id WalFail.success [(("db"), [7])] ("db")).2 := by
  decide

/-- C2 (amended): with no sibling WAL file and no failure, `apply_wal` logs an
info message but still makes the backup, issues the checkpoint and the
compaction and removes the backup; the source file ends with the engine's
checkpoint-then-vacuum result, and no backup file remains. -/
theorem apply_wal_no_wal_amended (ckpt vac : List Nat → List Nat) (fs : DiskB)
    (input_filename : String) (orig : List Nat)
    (hwal : alLookup fs (input_filename ++ ("-wal")) = none)
    (horig : alLookup fs input_filename = some orig) :
    (apply_wal ckpt vac WalFail.success fs input_filename).2 =
      [WalEvent.infoNoWal, WalEvent.backupMade, WalEvent.checkpointIssued,
        WalEvent.vacuumIssued, WalEvent.backupRemoved] ∧
    alLookup (apply_wal ckpt vac WalFail.success fs input_filename).1
      input_filename = some (vac (ckpt orig)) ∧
    alLookup (apply_wal ckpt vac WalFail.success fs input_filename).1
      (input_filename ++ (".backup")) = none := by
  have hbackup : input_filename ++ (".backup") ≠ input_filename :=
    append_ne_self _ _ (by decide)
  refine ⟨?_, ?_, ?_⟩
  · simp [apply_wal, hwal]
  · simp only [apply_wal, hwal, Option.isSome_none, horig, Option.getD_some]
    rw [alLookup_alRemove_ne _ _ _ (Ne.symm hbackup), alLookup_alWrite_self]
  · simp only [apply_wal, hwal, Option.isSome_none, horig, Option.getD_some]
    rw [alLookup_alRemove_self]

/-- Closed instance of `apply_wal_no_wal_amended` on a one-file filesystem. -/
theorem apply_wal_no_wal_amended_witness :
    alLookup (apply_wal id id WalFail.success [(("db"), [7])] ("db")).1 ("db") =
      some (id (id [7])) :=
  (apply_wal_no_wal_amended id id [(("db"), [7])] ("db") [7]
    (by decide) (by decide)).2.1

/-- C3: wherever the checkpoint/compaction step fails, `apply_wal` restores the
source file to its pre-run bytes, leaves no backup file behind, reports the
failure, and issues the checkpoint at most once — no retry. -/
theorem apply_wal_failure_restores (ckpt vac : List Nat → List Nat)
    (fail : WalFail) (fs : DiskB) (input_filename : String) (orig : List Nat)
    (hfail : fail ≠ WalFail.success)
    (horig : alLookup fs input_filename = some orig) :
    alLookup (apply_wal ckpt vac fail fs input_filename).1 input_filename =
      some orig ∧
    alLookup (apply_wal ckpt vac fail fs input_filename).1
      (input_filename ++ (".backup")) = none ∧
    WalEvent.exceptionLogged ∈ (apply_wal ckpt vac fail fs input_filename).2 ∧
    List.count WalEvent.checkpointIssued
      (apply_wal ckpt vac fail fs input_filename).2 ≤ 1 := by
  have hbackup : input_filename ++ (".backup") ≠ input_filename :=
    append_ne_self _ _ (by decide)
  cases fail with
  | success => exact absurd rfl hfail
  | atCheckpoint =>
    refine ⟨?_, ?_, ?_, ?_⟩
    · simp only [apply_wal, horig, Option.getD_some]
      rw [alLookup_alRemove_ne _ _ _ (Ne.symm hbackup), alLookup_alWrite_self]
    · simp only [apply_wal]
      rw [alLookup_alRemove_self]
    · by_cases hw : (alLookup fs (input_filename ++ ("-wal"))).isSome = true <;>
        simp [apply_wal, hw]
    · by_cases hw : (alLookup fs (input_filename ++ ("-wal"))).isSome = true <;>
        simp [apply_wal, hw, List.count_append, List.count_cons]
  | atVacuum =>
    refine ⟨?_, ?_, ?_, ?_⟩
    · simp only [apply_wal, horig, Option.getD_some]
      rw [alLookup_alRemove_ne _ _ _ (Ne.symm hbackup), alLookup_alWrite_self]
    · simp only [apply_wal]
      rw [alLookup_alRemove_self]
    · by_cases hw : (alLookup fs (input_filename ++ ("-wal"))).isSome = true <;>
        simp [apply_wal, hw]
    · by_cases hw : (alLookup fs (input_filename ++ ("-wal"))).isSome = true <;>
        simp [apply_wal, hw, List.count_append, List.count_cons]

/-- Closed instance of `apply_wal_failure_restores`: a checkpoint failure
leaves the original bytes in place. -/
theorem apply_wal_failure_restores_witness :
    alLookup (apply_wal id id WalFail.atCheckpoint [(("db"), [7])] ("db")).1
      ("db") = some [7] :=
  (apply_wal_failure_restores id id WalFail.atCheckpoint [(("db"), [7])] ("db")
    [7] (by decide) (by decide)).1

theorem charOfNat_ne_quote (m : Nat) (hne : m ≠ 39) : Char.ofNat m ≠ quoteC := by
  intro hc
  unfold quoteC Char.ofNat at hc
  by_cases hv : m.isValidChar
  · rw [dif_pos hv, dif_pos (show Nat.isValidChar 39 from Or.inl (by omega))] at hc
    refine hne ?_
    injection hc with h4
    injection h4 with h5
    have := congrArg BitVec.toNat h5
    simpa using this
  · rw [dif_neg hv, dif_pos (show Nat.isValidChar 39 from Or.inl (by omega))] at hc
    injection hc with h4
    injection h4 with h5
    have := congrArg BitVec.toNat h5
    simp at this

theorem hexDigit_ne_quote (n : Nat) : hexDigit n ≠ quoteC := by
  unfold hexDigit
  by_cases h : n < 10
  · rw [if_pos h]
    exact charOfNat_ne_quote _ (by omega)
  · rw [if_neg h]
    exact charOfNat_ne_quote _ (by omega)

theorem escByte_bounded : ∀ b, b < 127 → b ≠ 39 → quoteC ∉ pyEscByte quoteC b := by
  decide

theorem quote_not_mem_escByte (b : Nat) (h : b ≠ 39) : quoteC ∉ pyEscByte quoteC b := by
  by_cases hlt : b < 127
  · exact escByte_bounded b hlt h
  · have h1 : b ≠ 92 := by omega
    have h2 : ¬(quoteC = quoteC ∧ b = 39) := fun hc => by omega
    have h3 : ¬(quoteC = dquoteC ∧ b = 34) := fun hc => by omega
    have h4 : b ≠ 9 := by omega
    have h5 : b ≠ 10 := by omega
    have h6 : b ≠ 13 := by omega
    have h7 : ¬(32 ≤ b ∧ b ≤ 126) := by omega
    unfold pyEscByte
    rw [if_neg h1, if_neg h2, if_neg h3, if_neg h4, if_neg h5, if_neg h6, if_neg h7]
    intro hmem
    simp only [List.mem_cons, List.not_mem_nil, or_false] at hmem
    rcases hmem with hc | hc | hc | hc
    · exact absurd hc (by decide)
    · exact absurd hc (by decide)
    · exact hexDigit_ne_quote _ hc.symm
    · exact hexDigit_ne_quote _ hc.symm

theorem pyQuote_eq_quote (bs : List Nat) (h : bs.contains 39 = false) :
    pyQuote bs = quoteC := by
  unfold pyQuote
  rw [h]
  rfl

theorem quote_not_mem_body (bs : List Nat) (h : bs.contains 39 = false) :
    quoteC ∉ pyReprBody bs := by
  have h39 : (39 : Nat) ∉ bs := by simpa using h
  unfold pyReprBody
  rw [pyQuote_eq_quote bs h]
  intro hmem
  rw [List.mem_flatMap] at hmem
  obtain ⟨b, hb, hq⟩ := hmem
  exact quote_not_mem_escByte b (fun hbe => h39 (hbe ▸ hb)) hq

theorem dropWhile_eq_self_of {α : Type} (p : α → Bool) (l : List α)
    (h : ∀ c ∈ l, p c = false) : l.dropWhile p = l := by
  cases l with
  | nil => rfl
  | cons c t =>
    rw [List.dropWhile_cons, if_neg (by rw [h c (by simp)]; simp)]

theorem pyStrip_wrapped (cs : List Char) (h : quoteC ∉ cs) :
    pyStrip (quoteC :: (cs ++ [quoteC])) [quoteC] = cs := by
  have hq : ([quoteC].contains quoteC) = true := by simp
  have hpred : ∀ c ∈ cs, ([quoteC].contains c) = false := by
    intro c hc
    have hne : c ≠ quoteC := fun hce => h (hce ▸ hc)
    simp [hne]
  unfold pyStrip pyLstrip pyRstrip
  rw [List.dropWhile_cons, if_pos hq]
  cases cs with
  | nil => simp
  | cons c0 cs' =>
    rw [List.cons_append, List.dropWhile_cons,
      if_neg (by rw [hpred c0 (by simp)]; simp)]
    rw [show (c0 :: (cs' ++ [quoteC])).reverse = quoteC :: (c0 :: cs').reverse by simp]
    rw [List.dropWhile_cons, if_pos hq]
    rw [dropWhile_eq_self_of _ _ (fun c hc => hpred c (List.mem_reverse.mp hc)),
      List.reverse_reverse]

theorem to_string_bytes_eq_stripped (bs : List Nat) (h : bs.contains 39 = false) :
    to_string_bytes bs = specStrippedRepr bs := by
  have hq : pyQuote bs = quoteC := pyQuote_eq_quote bs h
  have hbody : quoteC ∉ pyReprBody bs := quote_not_mem_body bs h
  unfold to_string_bytes specStrippedRepr
  unfold pyBytesRepr pyLstrip
  rw [hq]
  rw [List.dropWhile_cons, if_pos (by decide)]
  rw [List.dropWhile_cons, if_neg (by decide)]
  rw [pyStrip_wrapped _ hbody]
  rw [show (('b' :: quoteC :: (pyReprBody bs ++ [quoteC])).drop 2) =
      pyReprBody bs ++ [quoteC] from rfl]
  rw [List.dropLast_concat]

/-- C7 counterexample: for the single byte `0x27` (a quote), the debug
representation is double-quoted (`b"'"`); `lstrip("b").strip("'")` removes
nothing beyond the prefix, so the result keeps both double-quote artifacts
(3 characters) instead of being the bare stripped body (1 character). -/
theorem to_string_quote_counterexample :
    to_string_bytes [39] ≠ specStrippedRepr [39] ∧
    (to_string_bytes [39]).length = 3 ∧ (specStrippedRepr [39]).length = 1 := by
  decide

/-- C7 (amended): the normalizer always turns a bytes value into a (JSON
serializable) string, namely `str(data)` with leading `b` characters and
leading/trailing single-quote characters stripped; when the byte sequence
contains no single-quote byte this equals the debug representation with the
prefix and the surrounding quote artifacts stripped, but when a quote byte is
present the representation's quote artifacts can survive in the result. -/
theorem to_string_blob_amended (bs : List Nat) :
    to_string (Value.blob bs) = Value.text (to_string_bytes bs) ∧
    jsonSerializable (to_string (Value.blob bs)) = true ∧
    (bs.contains 39 = false → to_string_bytes bs = specStrippedRepr bs) := by
  refine ⟨rfl, rfl, ?_⟩
  exact to_string_bytes_eq_stripped bs

/-- Closed instance of `to_string_blob_amended` at a quote-free byte pair. -/
theorem to_string_blob_amended_witness :
    to_string_bytes [65, 66] = specStrippedRepr [65, 66] :=
  (to_string_blob_amended [65, 66]).2.2 (by decide)

end SqliteToJsonl
